import Mathlib

/-!
Verification development for a friendly JSON body extractor.

The repository's own code (src/lib.rs) is the integration glue: it reads the
request body bytes, runs a path-tracking JSON deserialization over them, and
maps both failure kinds (transport read failure, decode diagnostic) to the
host framework's generic bad-request error, formatting the decode failure
message from the diagnostic's path and cause.

The path-tracking decoder itself is delegated to external libraries
(a conformant JSON parser plus a path-tracking deserialization wrapper) whose
code is not part of this repository; those parts are modelled here from the
specification's description of the decode-and-locate pipeline, over the
fragment of JSON exercised by the spec's representative schemas
(strings, integer numerals, booleans, null, arrays, objects).
-/

namespace FriendlyJson

/-- Modelled from the spec: a parsed JSON document value (the structured data
the conformant JSON parser produces), restricted to integer numerals. -/
inductive JValue : Type where
  | null : JValue
  | bool : Bool → JValue
  | num : Int → JValue
  | str : String → JValue
  | arr : List JValue → JValue
  | obj : List (String × JValue) → JValue
deriving Repr

/-- Modelled from the spec: one segment of a root-to-node path, either an
object field name or an array index. -/
inductive Seg where
  | key (name : String)
  | index (i : Nat)
deriving Repr, DecidableEq

/-- Modelled from the spec: the cause of a decode failure, either a malformed
document (a JSON text-level failure), a wrong-kind value at a node, a value of
the right kind but out of range, or a missing required field. -/
inductive Cause where
  | malformed (msg : String)
  | invalidType (expected actual : String)
  | invalidValue (expected actual : String)
  | missingField (name : String)
deriving Repr, DecidableEq

/-- Modelled from the spec: a decode diagnostic pairing the captured
root-to-node path with the underlying cause. -/
structure Diagnostic where
  path : List Seg
  cause : Cause
deriving Repr, DecidableEq

/-- Rendering of the first path segment (no leading dot for a field name). -/
def Seg.renderFirst : Seg → String
  | .key n => n
  | .index i => "[" ++ toString i ++ "]"

/-- Rendering of a later path segment (field names get a leading dot). -/
def Seg.renderRest : Seg → String
  | .key n => "." ++ n
  | .index i => "[" ++ toString i ++ "]"

/-- Modelled from the spec: render a path as a human-readable dot/bracket
string such as `items[3].name`; the empty (root) path renders as the empty
string, not a literal placeholder. -/
def renderPath : List Seg → String
  | [] => ""
  | s :: rest => s.renderFirst ++ String.join (rest.map Seg.renderRest)

/-- Modelled from the spec: render a cause as the underlying rejection
message (expected versus actual type, missing field name, or the
text-level message). -/
def Cause.render : Cause → String
  | .malformed m => m
  | .invalidType expected actual => "invalid type: " ++ actual ++ ", expected " ++ expected
  | .invalidValue expected actual => "invalid value: " ++ actual ++ ", expected " ++ expected
  | .missingField n => "missing field " ++ n

/-- The JSON kind name of a value, used in wrong-kind rejection messages. -/
def JValue.kindName : JValue → String
  | .null => "null"
  | .bool _ => "boolean"
  | .num _ => "integer"
  | .str _ => "string"
  | .arr _ => "sequence"
  | .obj _ => "map"

/-- Whitespace skipping of the JSON text. -/
def skipWs : List Char → List Char
  | [] => []
  | c :: rest => if c = ' ' || c = '\n' || c = '\t' || c = '\r' then skipWs rest else c :: rest

/-- Supported escape sequences inside a JSON string literal. -/
def escapeChar (e : Char) : Option Char :=
  if e = '"' then some '"'
  else if e = '\\' then some '\\'
  else if e = 'n' then some '\n'
  else if e = 't' then some '\t'
  else if e = 'r' then some '\r'
  else if e = '/' then some '/'
  else none

/-- Read the characters of a JSON string literal after its opening quote,
returning the decoded characters and the remaining input. -/
def parseStringChars : List Char → Except String (List Char × List Char)
  | [] => .error "EOF while parsing a string"
  | c :: rest =>
    if c = '"' then .ok ([], rest)
    else if c = '\\' then
      match rest with
      | [] => .error "EOF while parsing a string"
      | e :: rest2 =>
        match escapeChar e with
        | none => .error "invalid escape"
        | some ec =>
          match parseStringChars rest2 with
          | .error m => .error m
          | .ok (s, r) => .ok (ec :: s, r)
    else
      match parseStringChars rest with
      | .error m => .error m
      | .ok (s, r) => .ok (c :: s, r)

/-- Numeric value of a decimal digit character, if it is one. -/
def digitVal (c : Char) : Option Nat :=
  if '0' ≤ c ∧ c ≤ '9' then some (c.toNat - 48) else none

/-- Split off the longest leading run of decimal digits. -/
def takeDigits : List Char → List Nat × List Char
  | [] => ([], [])
  | c :: rest =>
    match digitVal c with
    | none => ([], c :: rest)
    | some d =>
      let (ds, r) := takeDigits rest
      (d :: ds, r)

/-- Decimal digits to a natural number, most significant first. -/
def digitsToNat (acc : Nat) : List Nat → Nat
  | [] => acc
  | d :: ds => digitsToNat (acc * 10 + d) ds

/-- Read an integer numeral (optional minus sign, then digits). -/
def parseNumber : List Char → Except String (Int × List Char)
  | '-' :: rest =>
    match takeDigits rest with
    | ([], _) => .error "expected value"
    | (ds, r) => .ok (-(Int.ofNat (digitsToNat 0 ds)), r)
  | input =>
    match takeDigits input with
    | ([], _) => .error "expected value"
    | (ds, r) => .ok (Int.ofNat (digitsToNat 0 ds), r)

/-- Match an expected literal continuation (for true / false / null). -/
def stripLit : List Char → List Char → Option (List Char)
  | [], input => some input
  | _ :: _, [] => none
  | p :: ps, c :: rest => if c = p then stripLit ps rest else none

mutual

/-- Modelled from the spec: recursive-descent JSON parse that threads the
current root-to-node path through every recursive step, so a text-level
failure reports the path of how far the parse progressed.  Returns the parsed
value and the remaining (unconsumed) input.  The fuel argument bounds the
recursion depth. -/
def parseValue : Nat → List Seg → List Char → Except (List Seg × String) (JValue × List Char)
  | 0, ctx, _ => .error (ctx, "recursion limit exceeded")
  | fuel + 1, ctx, input =>
    match skipWs input with
    | [] => .error (ctx, "EOF while parsing a value")
    | c :: rest =>
      if c = '"' then
        match parseStringChars rest with
        | .error m => .error (ctx, m)
        | .ok (s, r) => .ok (.str (String.mk s), r)
      else if c = '{' then
        parseObjRest fuel ctx [] (skipWs rest) true
      else if c = '[' then
        parseArrRest fuel ctx [] 0 (skipWs rest) true
      else if c = 't' then
        match stripLit ['r', 'u', 'e'] rest with
        | some r => .ok (.bool true, r)
        | none => .error (ctx, "expected value")
      else if c = 'f' then
        match stripLit ['a', 'l', 's', 'e'] rest with
        | some r => .ok (.bool false, r)
        | none => .error (ctx, "expected value")
      else if c = 'n' then
        match stripLit ['u', 'l', 'l'] rest with
        | some r => .ok (.null, r)
        | none => .error (ctx, "expected value")
      else if c = '-' || ('0' ≤ c ∧ c ≤ '9' : Bool) then
        match parseNumber (c :: rest) with
        | .error m => .error (ctx, m)
        | .ok (n, r) => .ok (.num n, r)
      else
        .error (ctx, "expected value")

/-- Members of an object after its opening brace (input already
whitespace-skipped); field descent extends the path with the field name. -/
def parseObjRest : Nat → List Seg → List (String × JValue) → List Char → Bool →
    Except (List Seg × String) (JValue × List Char)
  | 0, ctx, _, _, _ => .error (ctx, "recursion limit exceeded")
  | fuel + 1, ctx, acc, input, isFirst =>
    match input with
    | [] => .error (ctx, "EOF while parsing an object")
    | c :: rest =>
      if c = '}' ∧ isFirst = true then .ok (.obj acc, rest)
      else if c = '"' then
        match parseStringChars rest with
        | .error m => .error (ctx, m)
        | .ok (kcs, r1) =>
          let k := String.mk kcs
          match skipWs r1 with
          | ':' :: r2 =>
            match parseValue fuel (ctx ++ [Seg.key k]) r2 with
            | .error e => .error e
            | .ok (v, r3) =>
              match skipWs r3 with
              | ',' :: r4 => parseObjRest fuel ctx (acc ++ [(k, v)]) (skipWs r4) false
              | '}' :: r4 => .ok (.obj (acc ++ [(k, v)]), r4)
              | _ => .error (ctx, "expected comma or end of object")
          | _ => .error (ctx ++ [Seg.key k], "expected colon")
      else .error (ctx, "key must be a string")

/-- Elements of an array after its opening bracket (input already
whitespace-skipped); element descent extends the path with the index. -/
def parseArrRest : Nat → List Seg → List JValue → Nat → List Char → Bool →
    Except (List Seg × String) (JValue × List Char)
  | 0, ctx, _, _, _, _ => .error (ctx, "recursion limit exceeded")
  | fuel + 1, ctx, acc, idx, input, isFirst =>
    match input with
    | [] => .error (ctx, "EOF while parsing a list")
    | c :: rest =>
      if c = ']' ∧ isFirst = true then .ok (.arr acc, rest)
      else
        match parseValue fuel (ctx ++ [Seg.index idx]) (c :: rest) with
        | .error e => .error e
        | .ok (v, r1) =>
          match skipWs r1 with
          | ',' :: r2 => parseArrRest fuel ctx (acc ++ [v]) (idx + 1) (skipWs r2) false
          | ']' :: r2 => .ok (.arr (acc ++ [v]), r2)
          | _ => .error (ctx, "expected comma or end of list")

end

/-- Parse one JSON document value from the front of the input, with fuel
sufficient for any nesting the input length allows.  The unconsumed remainder
of the input is returned alongside the value. -/
def parseTop (input : List Char) : Except (List Seg × String) (JValue × List Char) :=
  parseValue (input.length + 1) [] input

/-- Range test for an unsigned 32-bit target (a nonnegative integer of at
most 4294967295). -/
def inU32 : Int → Bool
  | .ofNat m => Nat.ble m 4294967295
  | .negSucc _ => false

/-- Range test for a signed 32-bit target (an integer between -2147483648
and 2147483647). -/
def inI32 : Int → Bool
  | .ofNat m => Nat.ble m 2147483647
  | .negSucc m => Nat.ble m 2147483647

/-- Whether a JSON value decodes as a u32 (the age field's target type). -/
def isValidU32 : JValue → Bool
  | .num n => inU32 n
  | _ => false

/-- Whether a JSON value is an object. -/
def JValue.isObjV : JValue → Bool
  | .obj _ => true
  | _ => false

/-- Modelled from the spec: type-directed decode of a u32 at the given path;
a wrong-kind value is rejected with the expected-versus-actual cause at that
exact node. -/
def decodeU32 (ctx : List Seg) : JValue → Except Diagnostic Nat
  | .num n => if inU32 n then .ok n.toNat else .error ⟨ctx, .invalidValue "u32" (toString n)⟩
  | v => .error ⟨ctx, .invalidType "u32" v.kindName⟩

/-- Modelled from the spec: type-directed decode of an i32 at the given path. -/
def decodeI32 (ctx : List Seg) : JValue → Except Diagnostic Int
  | .num n => if inI32 n then .ok n else .error ⟨ctx, .invalidValue "i32" (toString n)⟩
  | v => .error ⟨ctx, .invalidType "i32" v.kindName⟩

/-- Modelled from the spec: type-directed decode of a string at the given path. -/
def decodeStringAt (ctx : List Seg) : JValue → Except Diagnostic String
  | .str s => .ok s
  | v => .error ⟨ctx, .invalidType "a string" v.kindName⟩

/-- First value bound to a field name in an object's member list, if any
(later duplicates are ignored; unknown fields are ignored, matching the
default structural mapping). -/
def getField : List (String × JValue) → String → Option JValue
  | [], _ => none
  | (k, v) :: rest, key => if k = key then some v else getField rest key

/-- The representative schema of the repository's tests: a name string and a
u32 age. -/
structure TestData where
  name : String
  age : Nat
deriving Repr, DecidableEq

/-- The nested-object schema of the repository's tests. -/
structure NestedData where
  value : Int
deriving Repr, DecidableEq

/-- A representative schema with nested objects, arrays and scalars. -/
structure RichData where
  name : String
  age : Nat
  nested : NestedData
  tags : List Nat
deriving Repr, DecidableEq

/-- Modelled from the spec: decode a document value into the TestData shape,
walking it field by field; object-field descent pushes the field name onto
the path, a missing required field is reported at the absent field's own
path, and a wrong-kind root is rejected at the empty (root) path. -/
def decodeTestDataVal : JValue → Except Diagnostic TestData
  | .obj fields =>
    match getField fields "name" with
    | none => .error ⟨[Seg.key "name"], .missingField "name"⟩
    | some nv =>
      match decodeStringAt [Seg.key "name"] nv with
      | .error d => .error d
      | .ok nm =>
        match getField fields "age" with
        | none => .error ⟨[Seg.key "age"], .missingField "age"⟩
        | some av =>
          match decodeU32 [Seg.key "age"] av with
          | .error d => .error d
          | .ok ag => .ok ⟨nm, ag⟩
  | v => .error ⟨[], .invalidType "struct TestData" v.kindName⟩

/-- Modelled from the spec: decode a document value into the NestedData shape
below the given path. -/
def decodeNestedAt (ctx : List Seg) : JValue → Except Diagnostic NestedData
  | .obj fields =>
    match getField fields "value" with
    | none => .error ⟨ctx ++ [Seg.key "value"], .missingField "value"⟩
    | some vv =>
      match decodeI32 (ctx ++ [Seg.key "value"]) vv with
      | .error d => .error d
      | .ok n => .ok ⟨n⟩
  | v => .error ⟨ctx, .invalidType "struct NestedData" v.kindName⟩

/-- Modelled from the spec: decode the elements of an array of u32, the
descent into element i pushing the index i onto the path. -/
def decodeU32List (ctx : List Seg) : Nat → List JValue → Except Diagnostic (List Nat)
  | _, [] => .ok []
  | i, v :: rest =>
    match decodeU32 (ctx ++ [Seg.index i]) v with
    | .error d => .error d
    | .ok n =>
      match decodeU32List ctx (i + 1) rest with
      | .error d => .error d
      | .ok ns => .ok (n :: ns)

/-- Modelled from the spec: look up a required field of a top-level object,
a missing field being reported at the absent field's own path. -/
def requireField (fields : List (String × JValue)) (name : String) :
    Except Diagnostic JValue :=
  match getField fields name with
  | none => .error ⟨[Seg.key name], .missingField name⟩
  | some v => .ok v

/-- Modelled from the spec: a value decoded as an array must be one. -/
def decodeTagsArr (ctx : List Seg) : JValue → Except Diagnostic (List JValue)
  | .arr elems => .ok elems
  | v => .error ⟨ctx, .invalidType "a sequence" v.kindName⟩

/-- Modelled from the spec: decode a document value into the RichData shape
(nested object, array of scalars, scalar fields), tracking the path at every
descent; the fields are extracted and decoded in declaration order, the
first rejection aborting the decode. -/
def decodeRichVal : JValue → Except Diagnostic RichData
  | .obj fields =>
    (requireField fields "name").bind fun nv =>
    (decodeStringAt [Seg.key "name"] nv).bind fun nm =>
    (requireField fields "age").bind fun av =>
    (decodeU32 [Seg.key "age"] av).bind fun ag =>
    (requireField fields "nested").bind fun nsv =>
    (decodeNestedAt [Seg.key "nested"] nsv).bind fun ns =>
    (requireField fields "tags").bind fun tv =>
    (decodeTagsArr [Seg.key "tags"] tv).bind fun elems =>
    (decodeU32List [Seg.key "tags"] 0 elems).map fun ts => ⟨nm, ag, ns, ts⟩
  | v => .error ⟨[], .invalidType "struct RichData" v.kindName⟩

/-- The document value a RichData value serializes to. -/
def encodeRich (r : RichData) : JValue :=
  .obj [("name", .str r.name),
        ("age", .num (Int.ofNat r.age)),
        ("nested", .obj [("value", .num r.nested.value)]),
        ("tags", .arr (r.tags.map fun t => .num (Int.ofNat t)))]

/-- Decode a byte buffer: parse one document value from the front of the
buffer (a text-level failure becomes a diagnostic with the malformed cause at
the parse's path), then run the type-directed decode on the value.  Mirrors
the source, which builds a deserializer over the byte slice and runs the
path-tracking deserialization without an end-of-input check, so any input
left after the first complete document is ignored. -/
def decodeBytesWith (dec : JValue → Except Diagnostic α) (input : List Char) :
    Except Diagnostic α :=
  match parseTop input with
  | .error (p, m) => .error ⟨p, .malformed m⟩
  | .ok (v, _rest) => dec v

/-- The full path-tracking decode for the TestData shape, from bytes. -/
def decodeTestDataBytes : List Char → Except Diagnostic TestData :=
  decodeBytesWith decodeTestDataVal

/-- The host framework's error categories (actix-web offers a constructor
per status code: bad request, unauthorized, not found, payload too large,
internal server error, ...).  The glue could map each failure kind to any of
them; which one it picks at each failure site is what claim C8 is about. -/
inductive ErrCategory where
  | badRequest
  | unauthorized
  | notFound
  | payloadTooLarge
  | internalServerError
deriving Repr, DecidableEq

/-- The host framework's request-handling error: a category and a
client-visible message. -/
structure ActixError where
  category : ErrCategory
  message : String
deriving Repr, DecidableEq

/-- The host framework's generic bad-request error constructor. -/
def ErrorBadRequest (msg : String) : ActixError := ⟨.badRequest, msg⟩

/-- The host framework's payload-too-large error constructor: available to
the glue (and the category actix-web itself uses for an overflowing body),
but never called by it. -/
def ErrorPayloadTooLarge (msg : String) : ActixError := ⟨.payloadTooLarge, msg⟩

/-- The host framework's internal-server-error constructor: available to the
glue, but never called by it. -/
def ErrorInternalServerError (msg : String) : ActixError := ⟨.internalServerError, msg⟩

/-- The transparent single-field wrapper around the decoded value
(src/lib.rs, struct Json). -/
structure Json (T : Type) where
  val : T
deriving Repr, DecidableEq

/-- Unwrap the inner value (src/lib.rs, into_inner). -/
def Json.into_inner (j : Json T) : T := j.val

/-- The integration glue of src/lib.rs, from_request: the body read result
feeds the decoder; a transport read failure becomes a bad-request error with
the message built as the concatenation of the text before the colon and the
transport cause; a decode diagnostic becomes a bad-request error with the
message built from the rendered path and the rendered cause; a decoded value
is returned in the Json wrapper. -/
def from_request (dec : List Char → Except Diagnostic α) (body : Except String (List Char)) :
    Except ActixError (Json α) :=
  match body with
  | .error e => .error (ErrorBadRequest ("Failed to read request body: " ++ e))
  | .ok bytes =>
    match dec bytes with
    | .error d =>
      .error (ErrorBadRequest ("Invalid JSON at " ++ renderPath d.path ++ ": " ++ Cause.render d.cause))
    | .ok v => .ok ⟨v⟩

/-- Two invocations of the decode pipeline on the same buffer, modelling
decoding the same byte buffer twice. -/
def runTwice (input : List Char) : Except Diagnostic TestData × Except Diagnostic TestData :=
  (decodeTestDataBytes input, decodeTestDataBytes input)

/-- A value that is not a valid u32 is rejected by the u32 decode at exactly
the path of the node being decoded. -/
theorem decodeU32_fails (ctx : List Seg) (v : JValue) (h : isValidU32 v = false) :
    ∃ c, decodeU32 ctx v = .error ⟨ctx, c⟩ := by
  cases v with
  | num n =>
      refine ⟨.invalidValue "u32" (toString n), ?_⟩
      simp only [isValidU32] at h
      simp [decodeU32, h]
  | null => exact ⟨_, rfl⟩
  | bool b => exact ⟨_, rfl⟩
  | str s => exact ⟨_, rfl⟩
  | arr xs => exact ⟨_, rfl⟩
  | obj fs => exact ⟨_, rfl⟩

/-- Unfolding of the u32 decode on a numeral. -/
theorem decodeU32_num (ctx : List Seg) (n : Int) :
    decodeU32 ctx (.num n) =
      if inU32 n = true then .ok n.toNat
      else .error ⟨ctx, .invalidValue "u32" (toString n)⟩ := rfl

/-- Unfolding of the u32 list decode on a cons cell. -/
theorem decodeU32List_cons (ctx : List Seg) (i : Nat) (v : JValue) (vs : List JValue) :
    decodeU32List ctx i (v :: vs) =
      (match decodeU32 (ctx ++ [Seg.index i]) v with
       | .error d => .error d
       | .ok n =>
         match decodeU32List ctx (i + 1) vs with
         | .error d => .error d
         | .ok ns => .ok (n :: ns)) := rfl

/-- An encoded list of in-range naturals decodes back to itself, whatever
the array's path and starting index. -/
theorem decodeU32List_map (ctx : List Seg) (i : Nat) (ts : List Nat)
    (h : ∀ t ∈ ts, t < 4294967296) :
    decodeU32List ctx i (ts.map fun t => JValue.num (Int.ofNat t)) = .ok ts := by
  induction ts generalizing i with
  | nil => rfl
  | cons t rest ih =>
      have ht : inU32 (Int.ofNat t) = true := by
        have h0 := h t (List.mem_cons_self t rest)
        simp [inU32, Nat.ble_eq]
        omega
      have ihr := ih (i + 1) (fun x hx => h x (List.mem_cons_of_mem _ hx))
      have h1 : decodeU32 (ctx ++ [Seg.index i]) (JValue.num (Int.ofNat t)) = .ok t := by
        rw [decodeU32_num, if_pos ht]
        rfl
      rw [List.map_cons, decodeU32List_cons, h1, ihr]

/-- Unfolding of the i32 decode on a numeral. -/
theorem decodeI32_num (ctx : List Seg) (n : Int) :
    decodeI32 ctx (.num n) =
      if inI32 n = true then .ok n
      else .error ⟨ctx, .invalidValue "i32" (toString n)⟩ := rfl

/-- Bind of a successful decode step. -/
theorem except_bind_ok {ε α β : Type} (a : α) (f : α → Except ε β) :
    (Except.ok a : Except ε α).bind f = f a := rfl

/-- Map over a successful decode step. -/
theorem except_map_ok {ε α β : Type} (a : α) (f : α → β) :
    (Except.ok a : Except ε α).map f = .ok (f a) := rfl

/-- Unfolding of the string decode on a string value. -/
theorem decodeStringAt_str (ctx : List Seg) (s : String) :
    decodeStringAt ctx (.str s) = .ok s := rfl

/-- Unfolding of the RichData decode on an object value. -/
theorem decodeRichVal_obj (fields : List (String × JValue)) :
    decodeRichVal (.obj fields) =
      ((requireField fields "name").bind fun nv =>
       (decodeStringAt [Seg.key "name"] nv).bind fun nm =>
       (requireField fields "age").bind fun av =>
       (decodeU32 [Seg.key "age"] av).bind fun ag =>
       (requireField fields "nested").bind fun nsv =>
       (decodeNestedAt [Seg.key "nested"] nsv).bind fun ns =>
       (requireField fields "tags").bind fun tv =>
       (decodeTagsArr [Seg.key "tags"] tv).bind fun elems =>
       (decodeU32List [Seg.key "tags"] 0 elems).map fun ts => ⟨nm, ag, ns, ts⟩) := rfl

/-- Claim C1: whenever decoding the body bytes fails with a diagnostic, the
client-visible failure message produced by the integration glue is exactly
the concatenation of "Invalid JSON at ", the rendered path, ": " and the
rendered cause. -/
theorem c1_invalid_json_message {α : Type} (dec : List Char → Except Diagnostic α)
    (bytes : List Char) (d : Diagnostic) (h : dec bytes = .error d) :
    from_request dec (.ok bytes) =
      .error (ErrorBadRequest ("Invalid JSON at " ++ renderPath d.path ++ ": " ++
        Cause.render d.cause)) := by
  simp only [from_request, h]

/-- Witness for C1 at a concrete failing input (an array body against the
TestData object shape). -/
theorem c1_invalid_json_message_witness :
    from_request decodeTestDataBytes (.ok ("[]".data)) =
      .error (ErrorBadRequest ("Invalid JSON at " ++ renderPath [] ++ ": " ++
        Cause.render (.invalidType "struct TestData" "sequence"))) :=
  c1_invalid_json_message decodeTestDataBytes ("[]".data)
    ⟨[], .invalidType "struct TestData" "sequence"⟩ rfl

/-- Claim C2: a document whose single leaf mismatch is the age field (any
value that is not a valid u32 there, the name field being a string) fails
with a diagnostic whose path is exactly the age field; for the concrete
input of the repository's test, the path is age and the cause describes an
expected unsigned integer that got a string. -/
theorem c2_single_leaf_mismatch_path (s : String) (v : JValue)
    (h : isValidU32 v = false) :
    (∃ c, decodeTestDataVal (.obj [("name", .str s), ("age", v)]) =
      .error ⟨[Seg.key "age"], c⟩) ∧
      decodeTestDataBytes ("\x7b\"name\":\"Test\",\"age\":\"invalid\"\x7d".data) =
        .error ⟨[Seg.key "age"], .invalidType "u32" "string"⟩ ∧
      Cause.render (.invalidType "u32" "string") = "invalid type: string, expected u32" := by
  refine ⟨?_, rfl, rfl⟩
  obtain ⟨c, hc⟩ := decodeU32_fails [Seg.key "age"] v h
  refine ⟨c, ?_⟩
  simp [decodeTestDataVal, getField, decodeStringAt, hc]

/-- Witness for C2 at the concrete failing input of the repository's test. -/
theorem c2_single_leaf_mismatch_path_witness :
    ∃ c, decodeTestDataVal (.obj [("name", .str "Test"), ("age", .str "invalid")]) =
      .error ⟨[Seg.key "age"], c⟩ :=
  (c2_single_leaf_mismatch_path "Test" (.str "invalid") (by decide)).1

/-- Claim C3: a root value of the wrong overall kind fails with the empty
root path; the root path renders as the empty string, and in the
client-visible message the root segment is empty rather than any literal
placeholder text. -/
theorem c3_root_wrong_kind_empty_path (v : JValue) (h : JValue.isObjV v = false) :
    (∃ c, decodeTestDataVal v = .error ⟨[], c⟩) ∧
      renderPath [] = "" ∧
      from_request decodeTestDataBytes (.ok ("\"hello\"".data)) =
        .error ⟨.badRequest, "Invalid JSON at : invalid type: string, expected struct TestData"⟩ := by
  refine ⟨?_, rfl, rfl⟩
  cases v with
  | obj fields => simp [JValue.isObjV] at h
  | null => exact ⟨_, rfl⟩
  | bool b => exact ⟨_, rfl⟩
  | num n => exact ⟨_, rfl⟩
  | str s => exact ⟨_, rfl⟩
  | arr xs => exact ⟨_, rfl⟩

/-- Witness for C3 at a concrete wrong-kind root (an array). -/
theorem c3_root_wrong_kind_empty_path_witness :
    ∃ c, decodeTestDataVal (.arr []) = .error ⟨[], c⟩ :=
  (c3_root_wrong_kind_empty_path (.arr []) (by decide)).1

/-- Claim C4: a document that omits a required field fails with a diagnostic
whose path names the absent field itself, not merely its containing object;
this holds for either required field of the TestData shape and for the
concrete byte-level input missing the age field. -/
theorem c4_missing_field_path (s : String) :
    decodeTestDataVal (.obj [("name", .str s)]) =
      .error ⟨[Seg.key "age"], .missingField "age"⟩ ∧
      decodeTestDataVal (.obj []) = .error ⟨[Seg.key "name"], .missingField "name"⟩ ∧
      decodeTestDataBytes ("\x7b\"name\":\"Test\"\x7d".data) =
        .error ⟨[Seg.key "age"], .missingField "age"⟩ := by
  exact ⟨rfl, rfl, rfl⟩

/-- Claim C5: whenever the text-level parse of the input fails, the decode
pipeline fails with the parse's malformed-input cause (never a type-mismatch
cause, a wrong-value cause or a missing-field cause); the empty byte buffer
flows through this same parse-failure case, and unbalanced braces are such a
failure. -/
theorem c5_malformed_input_cause {α : Type} (dec : JValue → Except Diagnostic α)
    (input : List Char) (p : List Seg) (m : String)
    (h : parseTop input = .error (p, m)) :
    decodeBytesWith dec input = .error ⟨p, .malformed m⟩ ∧
      parseTop [] = .error ([], "EOF while parsing a value") ∧
      decodeTestDataBytes ("\x7b".data) =
        .error ⟨[], .malformed "EOF while parsing an object"⟩ ∧
      (∀ e a, Cause.malformed m ≠ .invalidType e a) ∧
      (∀ e a, Cause.malformed m ≠ .invalidValue e a) ∧
      (∀ f, Cause.malformed m ≠ .missingField f) := by
  refine ⟨?_, rfl, rfl, ?_, ?_, ?_⟩
  · simp only [decodeBytesWith, h]
  · intro e a hc
    cases hc
  · intro e a hc
    cases hc
  · intro f hc
    cases hc

/-- Witness for C5 at the concrete empty input. -/
theorem c5_malformed_input_cause_witness :
    decodeBytesWith decodeTestDataVal [] =
      .error ⟨[], .malformed "EOF while parsing a value"⟩ :=
  (c5_malformed_input_cause decodeTestDataVal [] [] "EOF while parsing a value" rfl).1

/-- Claim C6: a document that structurally matches the representative schema
(nested object, array, scalars) decodes to a value all of whose fields equal
the document's fields exactly; success and failure are mutually exclusive
outcomes of the decode; the repository's concrete success scenario decodes
to exactly the expected value. -/
theorem c6_round_trip_fidelity (r : RichData) (h1 : r.age < 4294967296)
    (h2 : inI32 r.nested.value = true) (h3 : ∀ t ∈ r.tags, t < 4294967296) :
    decodeRichVal (encodeRich r) = .ok r ∧
      (∀ (v : JValue) (t : RichData) (d : Diagnostic),
        decodeRichVal v = .ok t → decodeRichVal v = .error d → False) ∧
      decodeTestDataBytes ("\x7b\"name\":\"Test\",\"age\":20\x7d".data) = .ok ⟨"Test", 20⟩ := by
  refine ⟨?_, ?_, rfl⟩
  · obtain ⟨nm, ag, ⟨nv⟩, ts⟩ := r
    have h2x : inI32 nv = true := h2
    have h3x : ∀ t ∈ ts, t < 4294967296 := h3
    have hu : inU32 (Int.ofNat ag) = true := by
      have h1x : ag < 4294967296 := h1
      simp [inU32, Nat.ble_eq]
      omega
    have hAge : decodeU32 [Seg.key "age"] (JValue.num (Int.ofNat ag)) = .ok ag := by
      rw [decodeU32_num, if_pos hu]
      rfl
    have hVal : decodeI32 ([Seg.key "nested"] ++ [Seg.key "value"]) (JValue.num nv) = .ok nv := by
      rw [decodeI32_num, if_pos h2x]
    have gv : getField [("value", JValue.num nv)] "value" = some (JValue.num nv) := rfl
    have hNested : decodeNestedAt [Seg.key "nested"] (.obj [("value", JValue.num nv)]) =
        .ok ⟨nv⟩ := by
      simp only [decodeNestedAt, gv, hVal]
    have hTags := decodeU32List_map [Seg.key "tags"] 0 ts h3x
    show decodeRichVal
        (.obj [("name", .str nm), ("age", .num (Int.ofNat ag)),
               ("nested", .obj [("value", .num nv)]),
               ("tags", .arr (ts.map fun t => .num (Int.ofNat t)))]) = .ok ⟨nm, ag, ⟨nv⟩, ts⟩
    have r1 : requireField [("name", JValue.str nm), ("age", JValue.num (Int.ofNat ag)),
        ("nested", JValue.obj [("value", JValue.num nv)]),
        ("tags", JValue.arr (ts.map fun t => JValue.num (Int.ofNat t)))] "name" =
        .ok (JValue.str nm) := rfl
    have r2 : requireField [("name", JValue.str nm), ("age", JValue.num (Int.ofNat ag)),
        ("nested", JValue.obj [("value", JValue.num nv)]),
        ("tags", JValue.arr (ts.map fun t => JValue.num (Int.ofNat t)))] "age" =
        .ok (JValue.num (Int.ofNat ag)) := rfl
    have r3 : requireField [("name", JValue.str nm), ("age", JValue.num (Int.ofNat ag)),
        ("nested", JValue.obj [("value", JValue.num nv)]),
        ("tags", JValue.arr (ts.map fun t => JValue.num (Int.ofNat t)))] "nested" =
        .ok (JValue.obj [("value", JValue.num nv)]) := rfl
    have r4 : requireField [("name", JValue.str nm), ("age", JValue.num (Int.ofNat ag)),
        ("nested", JValue.obj [("value", JValue.num nv)]),
        ("tags", JValue.arr (ts.map fun t => JValue.num (Int.ofNat t)))] "tags" =
        .ok (JValue.arr (ts.map fun t => JValue.num (Int.ofNat t))) := rfl
    have hArr : decodeTagsArr [Seg.key "tags"]
        (.arr (ts.map fun t => JValue.num (Int.ofNat t))) =
        .ok (ts.map fun t => JValue.num (Int.ofNat t)) := rfl
    rw [decodeRichVal_obj]
    simp only [r1, r2, r3, r4, hArr, decodeStringAt_str, hAge, hNested, hTags,
      except_bind_ok, except_map_ok]
  · intro v t d hok herr
    rw [hok] at herr
    exact Except.noConfusion herr

/-- Witness for C6 at a concrete representative document. -/
theorem c6_round_trip_fidelity_witness :
    decodeRichVal (encodeRich ⟨"Test", 20, ⟨-5⟩, [1, 2, 3]⟩) =
      .ok ⟨"Test", 20, ⟨-5⟩, [1, 2, 3]⟩ :=
  (c6_round_trip_fidelity ⟨"Test", 20, ⟨-5⟩, [1, 2, 3]⟩ (by decide) (by decide)
    (by decide)).1

/-- Claim C7: a transport-level body read failure produces a bad-request
failure whose message is exactly "Failed to read request body: " followed by
the transport cause, and the outcome does not depend on the decoder at all
(the decoder is never invoked on that request). -/
theorem c7_transport_failure_message {α : Type}
    (dec1 dec2 : List Char → Except Diagnostic α) (e : String) :
    from_request dec1 (.error e) =
      .error (ErrorBadRequest ("Failed to read request body: " ++ e)) ∧
      from_request dec1 (.error e) = from_request dec2 (.error e) :=
  ⟨rfl, rfl⟩

/-- Claim C8: every failure the glue produces, whether from a transport read
failure or from a decode diagnostic, carries the same client-error category,
the host framework's generic bad-request category — and the error model does
admit other categories, so this pins a real choice of the glue. -/
theorem c8_single_error_category {α : Type} (dec : List Char → Except Diagnostic α)
    (body : Except String (List Char)) (err : ActixError)
    (h : from_request dec body = .error err) :
    err.category = .badRequest ∧
      (ErrorPayloadTooLarge "x").category ≠ ErrCategory.badRequest ∧
      (ErrorInternalServerError "x").category ≠ ErrCategory.badRequest := by
  refine ⟨?_, ?_, ?_⟩
  · cases body with
    | error e =>
        simp only [from_request] at h
        injection h with h2
        rw [← h2]
        rfl
    | ok bytes =>
        cases hdec : dec bytes with
        | error d =>
            simp only [from_request, hdec] at h
            injection h with h2
            rw [← h2]
            rfl
        | ok v =>
            simp only [from_request, hdec] at h
            exact Except.noConfusion h
  · intro hc
    cases hc
  · intro hc
    cases hc

/-- Witness for C8 at a concrete transport failure. -/
theorem c8_single_error_category_witness :
    (ErrorBadRequest "Failed to read request body: oops").category = ErrCategory.badRequest :=
  (c8_single_error_category decodeTestDataBytes (.error "oops")
    (ErrorBadRequest "Failed to read request body: oops") rfl).1

/-- Claim C9: decoding is a pure, deterministic function of the input byte
buffer and the compile-time shape: running the decode twice on the same
buffer is literally running the same function of the input bytes twice, both
runs agree, and when both runs fail their diagnostics have the same path and
the same cause.  In this embedding the decode takes no argument other than
the bytes, so no hidden state can influence it. -/
theorem c9_decode_deterministic (input : List Char) :
    runTwice input = (decodeTestDataBytes input, decodeTestDataBytes input) ∧
      (runTwice input).1 = (runTwice input).2 ∧
      (∀ d1 d2, (runTwice input).1 = .error d1 → (runTwice input).2 = .error d2 →
        d1.path = d2.path ∧ d1.cause = d2.cause) := by
  refine ⟨rfl, rfl, ?_⟩
  intro d1 d2 e1 e2
  have e2x : (runTwice input).1 = Except.error d2 := e2
  rw [e1] at e2x
  injection e2x with h
  rw [h]
  exact ⟨rfl, rfl⟩

/-- Witness for C9 at a concrete failing input, both runs yielding the same
diagnostic. -/
theorem c9_decode_deterministic_witness :
    (Diagnostic.mk [] (Cause.invalidType "struct TestData" "sequence")).path =
      (Diagnostic.mk [] (Cause.invalidType "struct TestData" "sequence")).path ∧
      (Diagnostic.mk [] (Cause.invalidType "struct TestData" "sequence")).cause =
        (Diagnostic.mk [] (Cause.invalidType "struct TestData" "sequence")).cause :=
  (c9_decode_deterministic ("[]".data)).2.2 _ _ rfl rfl

/-- Claim C10: the decoder performs no end-of-input check: a byte buffer
consisting of a complete document matching the shape followed by trailing
non-whitespace bytes (which is itself not a single well-formed document)
decodes successfully to the value of the leading document, the trailing
bytes being silently ignored. -/
theorem c10_trailing_bytes_ignored :
    decodeTestDataBytes ("\x7b\"name\":\"Test\",\"age\":20\x7dxyz".data) = .ok ⟨"Test", 20⟩ ∧
      decodeTestDataBytes ("\x7b\"name\":\"Test\",\"age\":20\x7d".data) = .ok ⟨"Test", 20⟩ ∧
      parseTop ("xyz".data) = .error ([], "expected value") := by
  exact ⟨rfl, rfl, rfl⟩

end FriendlyJson
